import Mathlib

/-!
# Verification of the `circuit` package of the gluten repository

Shallow embedding of `src/circuit/circuit.go` (the `CountBreaker` circuit
breaker).  Conventions of the embedding:

* `time.Time` and `time.Duration` are modelled as `Int` (nanoseconds).
  Go `int64` arithmetic that can overflow (the backoff shifts and additions
  in `trip`) is wrapped explicitly with `wrap64`.
* `uint32` counters are `Nat` taken modulo `2^32` at each increment, exactly
  as `atomic.AddUint32` wraps.
* Each operation takes the current wall-clock time `now : Int` as an explicit
  argument (the Go code calls `time.Now()`).
* The value produced by `rand.Int63n(maxTime - minTime)` inside `trip` is an
  oracle argument `extra : Int`; theorems that exercise the trip path
  constrain it to the interval the generator draws from.  The panic of
  `rand.Int63n` on a non-positive bound is modelled faithfully.
* Go `panic` is modelled as `Except.error` carrying a `GoPanic` tag, one tag
  per distinct panic site.
* The code is lock-based but every critical section is tiny; the embedding is
  the sequential (linearized) semantics, in which the double-checked
  re-validation in `maybeReset` and `trip` never fires (no interleaving
  between the lock-free read and the locked section).
-/

namespace Circuit

/-- The three panic sites reachable from the breaker code:
`panic("Unknown response type")` in `Register`, the panic of `rand.Int63n`
on a non-positive argument inside `trip`, and
`panic("Implementation error in CountBreaker")` in `IsTripped`. -/
inductive GoPanic where
  | unknownResponseType
  | invalidInt63nArg
  | implementationError
deriving DecidableEq, Repr

/-- Structure `ErrTripped` is the error returned when a circuit breaker trips. -/
structure ErrTripped where
  ServiceName : String
deriving DecidableEq, Repr

/-- Type `ResponseType` is a Go `int`; modelled as `Int`. -/
abbrev ResponseType := Int

/-- Constant `Success ResponseType = iota`. -/
def Success : ResponseType := 0
/-- Constant `Anomaly`. -/
def Anomaly : ResponseType := 1
/-- Constant `Fatal`. -/
def Fatal : ResponseType := 2

/-- Constant `stateOpen = iota` — the state in which calls are permitted
(called `Normal` in the spec). -/
def stateOpen : Nat := 0
/-- Constant `stateHalfOpen` — the probing state (called `HalfOpen` in the spec). -/
def stateHalfOpen : Nat := 1
/-- Constant `stateClosed` — the blocking state (called `Tripped` in the spec). -/
def stateClosed : Nat := 2

/-- The modulus of Go `uint32` arithmetic. -/
def u32Mod : Nat := 4294967296

/-- Twos-complement wrap-around of an integer into the `int64` range,
the effect of Go `int64` overflow. -/
def wrap64 (x : Int) : Int := (x + 2 ^ 63) % 2 ^ 64 - 2 ^ 63

/-- Go left shift on `int64`: `x << n` is `x * 2^n` with the high bits
discarded (twos-complement wrap-around). -/
def goShl (x : Int) (n : Nat) : Int := wrap64 (x * 2 ^ n)

/-- Constant `time.Minute` in nanoseconds. -/
def Minute : Int := 60000000000

/-- Structure `CountBreakerParams` — the configuration of a count breaker. -/
structure CountBreakerParams where
  MaxAnomalies : Nat
  MaxFatalities : Nat
  TimeWindow : Int
  BackoffDuration : Int
  MaxBackoff : Int
deriving DecidableEq, Repr

/-- The fields of a `CountBreaker`.  `resetTime` holds the dual-purpose
deadline (`atomic.Value` in the source); `state` is the `uint32` state
register holding one of `stateOpen`, `stateHalfOpen`, `stateClosed`. -/
structure CountBreaker where
  numAnomalies : Nat
  numFatalities : Nat
  resetTime : Int
  successiveFailures : Nat
  state : Nat
  serviceName : String
  params : CountBreakerParams
deriving DecidableEq, Repr

/-- Function `NewCountBreaker` — applies the documented defaults for zero-valued
durations and stores `resetTime = now + TimeWindow`.  The Go zero values
give `numAnomalies = numFatalities = 0`, `successiveFailures = 0` and
`state = stateOpen`. -/
def NewCountBreaker (serviceName : String) (params : CountBreakerParams)
    (now : Int) : CountBreaker :=
  let params := if params.TimeWindow = 0 then
    { params with TimeWindow := Minute } else params
  let params := if params.BackoffDuration = 0 then
    { params with BackoffDuration := Minute } else params
  let params := if params.MaxBackoff = 0 then
    { params with MaxBackoff := 4 * Minute } else params
  { numAnomalies := 0
    numFatalities := 0
    resetTime := now + params.TimeWindow
    successiveFailures := 0
    state := stateOpen
    serviceName := serviceName
    params := params }

/-- Function `maybeReset` — the window-rollover check.  `resetTime.Before(now)` is a
strict comparison.  In the sequential semantics the double-checked re-read
of `resetTime` under the lock always sees the same value, so the bail-out
branch never fires.  The `switch` on the pre-reset state has no `default`
case: an out-of-range state value leaves `state` and `successiveFailures`
untouched. -/
def maybeReset (c : CountBreaker) (now : Int) : CountBreaker :=
  if c.resetTime < now then
    let c1 : CountBreaker :=
      { c with
        resetTime := now + c.params.TimeWindow
        numAnomalies := 0
        numFatalities := 0 }
    if c.state = stateOpen ∨ c.state = stateHalfOpen then
      { c1 with state := stateOpen, successiveFailures := 0 }
    else if c.state = stateClosed then
      { c1 with state := stateHalfOpen }
    else c1
  else c

/-- Function `trip` — returns `false` without any mutation when the breaker is
already `stateClosed`; otherwise stores `stateClosed`, computes the
randomized exponential backoff, stores the new deadline and increments
`successiveFailures`, returning `true`.  `extra` is the oracle for
`rand.Int63n(int64(maxTime - minTime))`, which panics when its argument is
non-positive. -/
def trip (c : CountBreaker) (now : Int) (extra : Int) :
    Except GoPanic (CountBreaker × Bool) :=
  if c.state = stateClosed then .ok (c, false)
  else
    let minTime := goShl c.params.BackoffDuration c.successiveFailures
    let maxTime := goShl c.params.BackoffDuration (c.successiveFailures + 1)
    if wrap64 (maxTime - minTime) ≤ 0 then .error GoPanic.invalidInt63nArg
    else
      let extraTime := extra
      let totalTime := wrap64 (minTime + extraTime)
      let totalTime :=
        if c.params.MaxBackoff ≤ totalTime then c.params.MaxBackoff
        else totalTime
      .ok ({ c with
              state := stateClosed
              resetTime := now + totalTime
              successiveFailures := c.successiveFailures + 1 }, true)

/-- Function `IsTripped` — rollover check, then an atomic read of the state; returns
`ErrTripped` exactly on `stateClosed`, `nil` on the two permitting states,
and panics on any other value. -/
def IsTripped (c : CountBreaker) (now : Int) :
    Except GoPanic (CountBreaker × Option ErrTripped) :=
  let c1 := maybeReset c now
  let state := c1.state
  if state = stateOpen ∨ state = stateHalfOpen then .ok (c1, none)
  else if state = stateClosed then .ok (c1, some ⟨c1.serviceName⟩)
  else .error GoPanic.implementationError

/-- Function `Register` — rollover check, atomic state read, then the `switch` on the
response type.  `atomic.AddUint32(&x, 1)` returns the post-increment value,
so `prev... := atomic.AddUint32(...) - 1` is the `uint32` decrement of the
wrapped post-increment value. -/
def Register (c : CountBreaker) (now : Int) (extra : Int) (r : ResponseType) :
    Except GoPanic (CountBreaker × Option ErrTripped) :=
  let c1 := maybeReset c now
  let state := c1.state
  if r = Success then
    if state = stateHalfOpen then .ok ({ c1 with state := stateOpen }, none)
    else .ok (c1, none)
  else if r = Anomaly then
    let newAnomalies := (c1.numAnomalies + 1) % u32Mod
    let prevAnomalies := (newAnomalies + (u32Mod - 1)) % u32Mod
    let c2 := { c1 with numAnomalies := newAnomalies }
    if c2.params.MaxAnomalies = prevAnomalies ∨ state = stateHalfOpen then
      match trip c2 now extra with
      | .error p => .error p
      | .ok (c3, true) => .ok (c3, some ⟨c3.serviceName⟩)
      | .ok (c3, false) => .ok (c3, none)
    else .ok (c2, none)
  else if r = Fatal then
    let newAnomalies := (c1.numAnomalies + 1) % u32Mod
    let prevAnomalies := (newAnomalies + (u32Mod - 1)) % u32Mod
    let newFatalities := (c1.numFatalities + 1) % u32Mod
    let prevFatalities := (newFatalities + (u32Mod - 1)) % u32Mod
    let c2 := { c1 with
                numAnomalies := newAnomalies
                numFatalities := newFatalities }
    if c2.params.MaxFatalities = prevFatalities ∨
        c2.params.MaxAnomalies = prevAnomalies ∨ state = stateHalfOpen then
      match trip c2 now extra with
      | .error p => .error p
      | .ok (c3, true) => .ok (c3, some ⟨c3.serviceName⟩)
      | .ok (c3, false) => .ok (c3, none)
    else .ok (c2, none)
  else .error GoPanic.unknownResponseType

/-- Running a list of `Register` calls in sequence at a fixed time, with a
fixed random oracle, collecting for each call whether it returned the
tripped error.  A panic aborts the run. -/
def registerRun (now : Int) (extra : Int) :
    CountBreaker → List ResponseType → Except GoPanic (CountBreaker × List Bool)
  | c, [] => .ok (c, [])
  | c, r :: rs =>
    match Register c now extra r with
    | .error p => .error p
    | .ok (c1, e) =>
      match registerRun now extra c1 rs with
      | .error p => .error p
      | .ok (c2, l) => .ok (c2, e.isSome :: l)

/-! ## Concrete instances used by witnesses and counterexamples -/

/-- A service name for concrete runs. -/
def svc : String := "db"

/-- Fresh breaker with `MaxAnomalies = 1`, window 10, backoff 1, cap 100,
built at time 0 (so its deadline is 10). -/
def bOne : CountBreaker := NewCountBreaker svc ⟨1, 9, 10, 1, 100⟩ 0

/-- Breaker `bOne` moved to the probing state. -/
def bHalf : CountBreaker := { bOne with state := stateHalfOpen }

/-- Breaker `bOne` moved to the blocking state. -/
def bTripped : CountBreaker := { bOne with state := stateClosed }

/-- Breaker `bOne` after one anomaly: the pre-increment value of the next anomaly
report equals `MaxAnomalies`. -/
def bAtMax : CountBreaker := { bOne with numAnomalies := 1 }

/-- The breaker produced by the threshold-crossing anomaly on `bAtMax` at
time 0 with a zero random draw. -/
def bAtMaxTripped : CountBreaker :=
  { bOne with
    numAnomalies := 2
    state := stateClosed
    resetTime := 1
    successiveFailures := 1 }

/-- Fresh breaker with `MaxAnomalies = 5`, window 10: three anomalies fit
well under the threshold. -/
def bSlack : CountBreaker := NewCountBreaker svc ⟨5, 6, 10, 1, 100⟩ 0

/-- Breaker `bSlack` after three registered anomalies. -/
def bSlackThree : CountBreaker := { bSlack with numAnomalies := 3 }

/-- Breaker `bSlackThree` after a `Success` registered at time 20: the elapsed
deadline makes the rollover fire first, resetting the counters and moving
the deadline to 30. -/
def bSlackRolled : CountBreaker := { bSlack with resetTime := 30 }

/-- Fresh breaker whose counting window (100) is much longer than its
backoff cap (1): `MaxAnomalies = 0`, so the first anomaly trips it. -/
def bLongWin : CountBreaker := NewCountBreaker svc ⟨0, 5, 100, 1, 1⟩ 0

/-- Breaker `bLongWin` after the first anomaly at time 1 with a zero random draw:
tripped, with the deadline pulled back from 100 to 2. -/
def bLongWinTripped : CountBreaker :=
  { bLongWin with
    numAnomalies := 1
    state := stateClosed
    resetTime := 2
    successiveFailures := 1 }

/-- Fresh breaker with `MaxAnomalies = 7`, window 10. -/
def bWide : CountBreaker := NewCountBreaker svc ⟨7, 8, 10, 1, 100⟩ 0

/-- Breaker `bWide` after two registered anomalies. -/
def bWideTwo : CountBreaker := { bWide with numAnomalies := 2 }

/-- Breaker `bWideTwo` after `IsTripped` at time 20: the rollover resets both
counters and moves the deadline to 30. -/
def bWideRolled : CountBreaker := { bWide with resetTime := 30 }

instance {ε α : Type} [DecidableEq ε] [DecidableEq α] : DecidableEq (Except ε α) :=
  fun a b =>
  match a, b with
  | .error e, .error f =>
    if h : e = f then .isTrue (by rw [h])
    else .isFalse (fun hc => by cases hc; exact h rfl)
  | .error _, .ok _ => .isFalse (fun hc => by cases hc)
  | .ok _, .error _ => .isFalse (fun hc => by cases hc)
  | .ok x, .ok y =>
    if h : x = y then .isTrue (by rw [h])
    else .isFalse (fun hc => by cases hc; exact h rfl)

/-! ## Helper lemmas -/

/-- When the deadline has not elapsed, `maybeReset` is the identity
(the lock-free fast path). -/
theorem maybeReset_not_elapsed (c : CountBreaker) (now : Int)
    (h : ¬ c.resetTime < now) : maybeReset c now = c := by
  unfold maybeReset
  rw [if_neg h]

/-- Function `wrap64` is the identity on the `int64` range. -/
theorem wrap64_eq (x : Int) (h1 : -(2 ^ 63) ≤ x) (h2 : x < 2 ^ 63) :
    wrap64 x = x := by
  have h63 : (2 : Int) ^ 63 = 9223372036854775808 := by norm_num
  have h64 : (2 : Int) ^ 64 = 18446744073709551616 := by norm_num
  unfold wrap64
  rw [h63, h64] at *
  rw [Int.emod_eq_of_lt (by omega) (by omega)]
  omega

/-- A Go left shift that stays inside the `int64` range is exact
multiplication by a power of two. -/
theorem goShl_eq (x : Int) (n : Nat) (hx : 0 ≤ x) (h : x * 2 ^ n < 2 ^ 63) :
    goShl x n = x * 2 ^ n := by
  unfold goShl
  exact wrap64_eq _ (le_trans (by norm_num) (mul_nonneg hx (by positivity))) h

/-- The `uint32` pre-increment value recovered by `AddUint32(x,1) - 1` is the
old counter value, as long as the increment does not wrap. -/
theorem prevCounter_eq (n : Nat) (h : n + 1 < u32Mod) :
    ((n + 1) % u32Mod + (u32Mod - 1)) % u32Mod = n := by
  unfold u32Mod at *
  omega


theorem prevCounter_eq2 (n : Nat) (h : n + 1 < u32Mod) :
    (n + 1 + (u32Mod - 1)) % u32Mod = n := by
  unfold u32Mod at *
  omega

theorem trip_closed (c : CountBreaker) (now extra : Int)
    (h : c.state = stateClosed) : trip c now extra = .ok (c, false) := by
  unfold trip
  rw [if_pos h]

theorem trip_ok (c : CountBreaker) (now extra : Int)
    (hstate : c.state ≠ stateClosed)
    (hbound : 0 < wrap64 (goShl c.params.BackoffDuration (c.successiveFailures + 1)
      - goShl c.params.BackoffDuration c.successiveFailures)) :
    trip c now extra = .ok ({ c with
        state := stateClosed
        resetTime := now + (if c.params.MaxBackoff ≤
            wrap64 (goShl c.params.BackoffDuration c.successiveFailures + extra)
          then c.params.MaxBackoff
          else wrap64 (goShl c.params.BackoffDuration c.successiveFailures + extra))
        successiveFailures := c.successiveFailures + 1 }, true) := by
  unfold trip
  rw [if_neg hstate, if_neg (not_le.mpr hbound)]

theorem trip_true_state {c : CountBreaker} {now extra : Int} {c' : CountBreaker}
    (h : trip c now extra = .ok (c', true)) :
    c.state ≠ stateClosed ∧ c'.state = stateClosed := by
  unfold trip at h
  by_cases hc : c.state = stateClosed
  · rw [if_pos hc] at h
    injection h with h
    injection h with h1 h2
    exact absurd h2 (by norm_num)
  · refine ⟨hc, ?_⟩
    rw [if_neg hc] at h
    by_cases hb : wrap64 (goShl c.params.BackoffDuration (c.successiveFailures + 1)
        - goShl c.params.BackoffDuration c.successiveFailures) ≤ 0
    · rw [if_pos hb] at h
      exact absurd h (by simp)
    · rw [if_neg hb] at h
      injection h with h
      injection h with h1 h2
      rw [← h1]

theorem trip_cases (c : CountBreaker) (now extra : Int) :
    (∃ p, trip c now extra = .ok p) ∨
      trip c now extra = .error GoPanic.invalidInt63nArg := by
  unfold trip
  by_cases hc : c.state = stateClosed
  · rw [if_pos hc]
    exact .inl ⟨_, rfl⟩
  · rw [if_neg hc]
    by_cases hb : wrap64 (goShl c.params.BackoffDuration (c.successiveFailures + 1)
        - goShl c.params.BackoffDuration c.successiveFailures) ≤ 0
    · rw [if_pos hb]
      exact .inr rfl
    · rw [if_neg hb]
      exact .inl ⟨_, rfl⟩

theorem maybeReset_from_tripped (c : CountBreaker) (now : Int)
    (he : c.resetTime < now) (hs : c.state = stateClosed) :
    maybeReset c now = { c with
        state := stateHalfOpen
        numAnomalies := 0
        numFatalities := 0
        resetTime := now + c.params.TimeWindow } := by
  unfold maybeReset
  rw [if_pos he]
  simp only [hs, stateOpen, stateHalfOpen, stateClosed]
  norm_num

theorem maybeReset_from_untripped (c : CountBreaker) (now : Int)
    (he : c.resetTime < now) (hs : c.state = stateOpen ∨ c.state = stateHalfOpen) :
    maybeReset c now = { c with
        state := stateOpen
        successiveFailures := 0
        numAnomalies := 0
        numFatalities := 0
        resetTime := now + c.params.TimeWindow } := by
  unfold maybeReset
  rw [if_pos he, if_pos hs]


theorem Register_success_not_elapsed (c : CountBreaker) (now extra : Int)
    (hre : ¬ c.resetTime < now) :
    Register c now extra Success =
      .ok (if c.state = stateHalfOpen then { c with state := stateOpen } else c,
        none) := by
  unfold Register
  rw [maybeReset_not_elapsed c now hre]
  simp only [Success, reduceIte]
  split <;> rfl

theorem Register_success_ok (c : CountBreaker) (now extra : Int) :
    ∃ c1, Register c now extra Success = .ok (c1, none) := by
  unfold Register
  simp only [Success, reduceIte]
  split
  · exact ⟨_, rfl⟩
  · exact ⟨_, rfl⟩

theorem Register_anomaly_noTrip (c : CountBreaker) (now extra : Int)
    (hre : ¬ c.resetTime < now) (hstate : c.state = stateOpen)
    (hlt : c.numAnomalies + 1 < u32Mod)
    (hne : c.params.MaxAnomalies ≠ c.numAnomalies) :
    Register c now extra Anomaly =
      .ok ({ c with numAnomalies := c.numAnomalies + 1 }, none) := by
  unfold Register
  rw [maybeReset_not_elapsed c now hre]
  simp only [Anomaly, Success, Fatal, stateOpen, stateHalfOpen, stateClosed,
    hstate, reduceIte, Nat.mod_eq_of_lt hlt, prevCounter_eq2 c.numAnomalies hlt,
    hne, or_false, if_false]
  norm_num

theorem Register_anomaly_trip (c : CountBreaker) (now extra : Int)
    (hre : ¬ c.resetTime < now) (hstate : c.state = stateOpen)
    (hlt : c.numAnomalies + 1 < u32Mod)
    (heq : c.params.MaxAnomalies = c.numAnomalies)
    (hbound : 0 < wrap64 (goShl c.params.BackoffDuration (c.successiveFailures + 1)
      - goShl c.params.BackoffDuration c.successiveFailures)) :
    Register c now extra Anomaly =
      .ok ({ c with
          numAnomalies := c.numAnomalies + 1
          state := stateClosed
          resetTime := now + (if c.params.MaxBackoff ≤
              wrap64 (goShl c.params.BackoffDuration c.successiveFailures + extra)
            then c.params.MaxBackoff
            else wrap64 (goShl c.params.BackoffDuration c.successiveFailures + extra))
          successiveFailures := c.successiveFailures + 1 },
        some ⟨c.serviceName⟩) := by
  unfold Register
  rw [maybeReset_not_elapsed c now hre]
  simp only [Anomaly, Success, Fatal, stateOpen, stateHalfOpen, stateClosed,
    hstate, reduceIte, Nat.mod_eq_of_lt hlt, prevCounter_eq2 c.numAnomalies hlt,
    heq]
  norm_num
  rw [trip_ok { c with numAnomalies := c.numAnomalies + 1, state := 0 } now extra
    (by simp [stateClosed]) hbound]
  rfl



theorem Register_anomaly_closed (c : CountBreaker) (now extra : Int)
    (hre : ¬ c.resetTime < now) (hstate : c.state = stateClosed) :
    Register c now extra Anomaly =
      .ok ({ c with numAnomalies := (c.numAnomalies + 1) % u32Mod }, none) := by
  unfold Register
  rw [maybeReset_not_elapsed c now hre]
  simp only [Anomaly, Success, Fatal, stateOpen, stateHalfOpen, stateClosed,
    hstate, reduceIte]
  norm_num
  intro _
  rw [trip_closed { c with
      numAnomalies := (c.numAnomalies + 1) % u32Mod
      state := 2 } now extra (by simp [stateClosed])]

theorem Register_anomaly_halfOpen (c : CountBreaker) (now extra : Int)
    (hre : ¬ c.resetTime < now) (hstate : c.state = stateHalfOpen)
    (hbound : 0 < wrap64 (goShl c.params.BackoffDuration (c.successiveFailures + 1)
      - goShl c.params.BackoffDuration c.successiveFailures)) :
    Register c now extra Anomaly =
      .ok ({ c with
          numAnomalies := (c.numAnomalies + 1) % u32Mod
          state := stateClosed
          resetTime := now + (if c.params.MaxBackoff ≤
              wrap64 (goShl c.params.BackoffDuration c.successiveFailures + extra)
            then c.params.MaxBackoff
            else wrap64 (goShl c.params.BackoffDuration c.successiveFailures + extra))
          successiveFailures := c.successiveFailures + 1 },
        some ⟨c.serviceName⟩) := by
  unfold Register
  rw [maybeReset_not_elapsed c now hre]
  simp only [Anomaly, Success, Fatal, stateOpen, stateHalfOpen, stateClosed,
    hstate, reduceIte, or_true, if_true]
  norm_num
  rw [trip_ok { c with numAnomalies := (c.numAnomalies + 1) % u32Mod, state := 1 }
    now extra (by simp [stateClosed]) hbound]
  rfl

theorem Register_fatal_noTrip (c : CountBreaker) (now extra : Int)
    (hre : ¬ c.resetTime < now) (hstate : c.state = stateOpen)
    (hltA : c.numAnomalies + 1 < u32Mod) (hltF : c.numFatalities + 1 < u32Mod)
    (hneA : c.params.MaxAnomalies ≠ c.numAnomalies)
    (hneF : c.params.MaxFatalities ≠ c.numFatalities) :
    Register c now extra Fatal =
      .ok ({ c with
          numAnomalies := c.numAnomalies + 1
          numFatalities := c.numFatalities + 1 }, none) := by
  unfold Register
  rw [maybeReset_not_elapsed c now hre]
  simp only [Anomaly, Success, Fatal, stateOpen, stateHalfOpen, stateClosed,
    hstate, reduceIte, Nat.mod_eq_of_lt hltA, Nat.mod_eq_of_lt hltF,
    prevCounter_eq2 c.numAnomalies hltA, prevCounter_eq2 c.numFatalities hltF,
    hneA, hneF]
  norm_num

theorem Register_fatal_trip (c : CountBreaker) (now extra : Int)
    (hre : ¬ c.resetTime < now) (hstate : c.state = stateOpen)
    (hltA : c.numAnomalies + 1 < u32Mod) (hltF : c.numFatalities + 1 < u32Mod)
    (hcond : c.params.MaxFatalities = c.numFatalities ∨
      c.params.MaxAnomalies = c.numAnomalies)
    (hbound : 0 < wrap64 (goShl c.params.BackoffDuration (c.successiveFailures + 1)
      - goShl c.params.BackoffDuration c.successiveFailures)) :
    Register c now extra Fatal =
      .ok ({ c with
          numAnomalies := c.numAnomalies + 1
          numFatalities := c.numFatalities + 1
          state := stateClosed
          resetTime := now + (if c.params.MaxBackoff ≤
              wrap64 (goShl c.params.BackoffDuration c.successiveFailures + extra)
            then c.params.MaxBackoff
            else wrap64 (goShl c.params.BackoffDuration c.successiveFailures + extra))
          successiveFailures := c.successiveFailures + 1 },
        some ⟨c.serviceName⟩) := by
  unfold Register
  rw [maybeReset_not_elapsed c now hre]
  simp only [Anomaly, Success, Fatal, stateOpen, stateHalfOpen, stateClosed,
    hstate, reduceIte, Nat.mod_eq_of_lt hltA, Nat.mod_eq_of_lt hltF,
    prevCounter_eq2 c.numAnomalies hltA, prevCounter_eq2 c.numFatalities hltF]
  norm_num
  rw [if_pos hcond]
  rw [trip_ok { c with
      numAnomalies := c.numAnomalies + 1
      numFatalities := c.numFatalities + 1
      state := 0 } now extra (by simp [stateClosed]) hbound]
  rfl

theorem Register_fatal_closed (c : CountBreaker) (now extra : Int)
    (hre : ¬ c.resetTime < now) (hstate : c.state = stateClosed) :
    Register c now extra Fatal =
      .ok ({ c with
          numAnomalies := (c.numAnomalies + 1) % u32Mod
          numFatalities := (c.numFatalities + 1) % u32Mod }, none) := by
  unfold Register
  rw [maybeReset_not_elapsed c now hre]
  simp only [Anomaly, Success, Fatal, stateOpen, stateHalfOpen, stateClosed,
    hstate, reduceIte]
  norm_num
  intro _
  rw [trip_closed { c with
      numAnomalies := (c.numAnomalies + 1) % u32Mod
      numFatalities := (c.numFatalities + 1) % u32Mod
      state := 2 } now extra (by simp [stateClosed])]

theorem Register_fatal_halfOpen (c : CountBreaker) (now extra : Int)
    (hre : ¬ c.resetTime < now) (hstate : c.state = stateHalfOpen)
    (hbound : 0 < wrap64 (goShl c.params.BackoffDuration (c.successiveFailures + 1)
      - goShl c.params.BackoffDuration c.successiveFailures)) :
    Register c now extra Fatal =
      .ok ({ c with
          numAnomalies := (c.numAnomalies + 1) % u32Mod
          numFatalities := (c.numFatalities + 1) % u32Mod
          state := stateClosed
          resetTime := now + (if c.params.MaxBackoff ≤
              wrap64 (goShl c.params.BackoffDuration c.successiveFailures + extra)
            then c.params.MaxBackoff
            else wrap64 (goShl c.params.BackoffDuration c.successiveFailures + extra))
          successiveFailures := c.successiveFailures + 1 },
        some ⟨c.serviceName⟩) := by
  unfold Register
  rw [maybeReset_not_elapsed c now hre]
  simp only [Anomaly, Success, Fatal, stateOpen, stateHalfOpen, stateClosed,
    hstate, reduceIte, or_true, if_true]
  norm_num
  rw [trip_ok { c with
      numAnomalies := (c.numAnomalies + 1) % u32Mod
      numFatalities := (c.numFatalities + 1) % u32Mod
      state := 1 } now extra (by simp [stateClosed]) hbound]
  rfl


theorem Register_err_source {c : CountBreaker} {now extra : Int}
    {r : ResponseType} {c' : CountBreaker} {e : ErrTripped}
    (h : Register c now extra r = .ok (c', some e)) :
    (maybeReset c now).state ≠ stateClosed ∧ c'.state = stateClosed := by
  unfold Register at h
  by_cases h0 : r = Success
  · rw [if_pos h0] at h
    split at h <;> simp at h
  · rw [if_neg h0] at h
    by_cases h1 : r = Anomaly
    · rw [if_pos h1] at h
      dsimp only at h
      split at h
      · rename_i hcond
        generalize htrip : trip { maybeReset c now with
          numAnomalies := ((maybeReset c now).numAnomalies + 1) % u32Mod }
          now extra = t at h
        match t with
        | .error p => simp at h
        | .ok (c3, true) =>
          obtain ⟨hpre, hpost⟩ := trip_true_state htrip
          simp only [Except.ok.injEq, Prod.mk.injEq, Option.some.injEq] at h
          obtain ⟨hc3, he⟩ := h
          subst hc3
          exact ⟨hpre, hpost⟩
        | .ok (c3, false) => simp at h
      · simp at h
    · by_cases h2 : r = Fatal
      · rw [if_neg h1, if_pos h2] at h
        dsimp only at h
        split at h
        · rename_i hcond
          generalize htrip : trip { maybeReset c now with
            numAnomalies := ((maybeReset c now).numAnomalies + 1) % u32Mod
            numFatalities := ((maybeReset c now).numFatalities + 1) % u32Mod }
            now extra = t at h
          match t with
          | .error p => simp at h
          | .ok (c3, true) =>
            obtain ⟨hpre, hpost⟩ := trip_true_state htrip
            simp only [Except.ok.injEq, Prod.mk.injEq, Option.some.injEq] at h
            obtain ⟨hc3, he⟩ := h
            subst hc3
            exact ⟨hpre, hpost⟩
          | .ok (c3, false) => simp at h
        · simp at h
      · rw [if_neg h1, if_neg h2] at h
        simp at h



theorem trip_error_eq {c : CountBreaker} {now extra : Int} {p : GoPanic}
    (h : trip c now extra = .error p) : p = GoPanic.invalidInt63nArg := by
  unfold trip at h
  split at h
  · simp at h
  · dsimp only at h
    split at h
    · injection h with h
      exact h.symm
    · simp at h

theorem Register_unknown (c : CountBreaker) (now extra : Int) (r : ResponseType)
    (h0 : r ≠ Success) (h1 : r ≠ Anomaly) (h2 : r ≠ Fatal) :
    Register c now extra r = .error GoPanic.unknownResponseType := by
  unfold Register
  rw [if_neg h0, if_neg h1, if_neg h2]

theorem Register_error_eq {c : CountBreaker} {now extra : Int}
    {r : ResponseType} {p : GoPanic} (hr : r = Success ∨ r = Anomaly ∨ r = Fatal)
    (h : Register c now extra r = .error p) : p = GoPanic.invalidInt63nArg := by
  unfold Register at h
  rcases hr with hr | hr | hr <;> subst hr
  · rw [if_pos (rfl : Success = Success)] at h
    split at h <;> simp at h
  · rw [if_neg (by decide : ¬(Anomaly = Success)),
      if_pos (rfl : Anomaly = Anomaly)] at h
    dsimp only at h
    split at h
    · split at h
      · rename_i q hq
        injection h with h
        rw [← h]
        exact trip_error_eq hq
      · simp at h
      · simp at h
    · simp at h
  · rw [if_neg (by decide : ¬(Fatal = Success)),
      if_neg (by decide : ¬(Fatal = Anomaly)),
      if_pos (rfl : Fatal = Fatal)] at h
    dsimp only at h
    split at h
    · split at h
      · rename_i q hq
        injection h with h
        rw [← h]
        exact trip_error_eq hq
      · simp at h
      · simp at h
    · simp at h

theorem Register_no_unknown (c : CountBreaker) (now extra : Int)
    (r : ResponseType) (h : r = Success ∨ r = Anomaly ∨ r = Fatal) :
    Register c now extra r ≠ .error GoPanic.unknownResponseType := by
  intro hcontra
  have hp := Register_error_eq h hcontra
  exact absurd hp (by simp)



theorem registerRun_replicate_noTrip (m : Nat) :
    ∀ (c : CountBreaker) (now extra : Int), ¬ c.resetTime < now →
    c.state = stateOpen → c.numAnomalies + m ≤ c.params.MaxAnomalies →
    c.params.MaxAnomalies + 1 < u32Mod →
    registerRun now extra c (List.replicate m Anomaly) =
      .ok ({ c with numAnomalies := c.numAnomalies + m },
        List.replicate m false) := by
  induction m with
  | zero =>
    intro c now extra h1 h2 h3 h4
    simp [registerRun, List.replicate]
  | succ m ih =>
    intro c now extra h1 h2 h3 h4
    rw [List.replicate_succ]
    unfold registerRun
    rw [Register_anomaly_noTrip c now extra h1 h2
      (by unfold u32Mod at *; omega) (by omega)]
    dsimp only
    rw [ih { c with numAnomalies := c.numAnomalies + 1 } now extra h1 h2
      (by dsimp only; omega) h4]
    dsimp only [Option.isSome]
    have harith : c.numAnomalies + 1 + m = c.numAnomalies + (m + 1) := by omega
    rw [harith, List.replicate_succ]



theorem registerRun_append (now extra : Int) (l1 l2 : List ResponseType) :
    ∀ c : CountBreaker, registerRun now extra c (l1 ++ l2) =
      match registerRun now extra c l1 with
      | .error p => .error p
      | .ok (c1, bs1) =>
        match registerRun now extra c1 l2 with
        | .error p => .error p
        | .ok (c2, bs2) => .ok (c2, bs1 ++ bs2) := by
  induction l1 with
  | nil =>
    intro c
    simp only [List.nil_append]
    dsimp only [registerRun]
    cases hr : registerRun now extra c l2 with
    | error p => rfl
    | ok q =>
      obtain ⟨c2, bs⟩ := q
      simp
  | cons r rs ih =>
    intro c
    simp only [List.cons_append]
    dsimp only [registerRun]
    cases hreg : Register c now extra r with
    | error p => rfl
    | ok q =>
      obtain ⟨c1, e⟩ := q
      dsimp only
      rw [ih c1]
      cases h1 : registerRun now extra c1 rs with
      | error p => rfl
      | ok w =>
        obtain ⟨c2, bs⟩ := w
        dsimp only
        cases h2 : registerRun now extra c2 l2 with
        | error p => rfl
        | ok v =>
          obtain ⟨c3, bs2⟩ := v
          simp



/-- C3: the trip procedure is idempotent: on an already-Tripped breaker it
changes no field and signals no new trip; and a `Register` call returns the
tripped error only when its own trip attempt performed the transition into
the Tripped state (the state after the rollover check was not Tripped, the
final state is). -/
theorem C3_trip_idempotent :
    (∀ (c : CountBreaker) (now extra : Int), c.state = stateClosed →
      trip c now extra = .ok (c, false)) ∧
    (∀ (c : CountBreaker) (now extra : Int) (r : ResponseType)
      (c' : CountBreaker) (e : ErrTripped),
      Register c now extra r = .ok (c', some e) →
      (maybeReset c now).state ≠ stateClosed ∧ c'.state = stateClosed) :=
  ⟨trip_closed, fun _ _ _ _ _ _ h => Register_err_source h⟩

/-- Witness for C3 at concrete inputs: an already-tripped breaker is left
intact by `trip`, and a threshold-crossing `Register(Anomaly)` that returns
the error did perform the transition itself. -/
theorem C3_trip_idempotent_witness :
    trip bTripped 0 0 = .ok (bTripped, false) ∧
    ((maybeReset bAtMax 0).state ≠ stateClosed ∧
      bAtMaxTripped.state = stateClosed) :=
  ⟨C3_trip_idempotent.1 bTripped 0 0 rfl,
   C3_trip_idempotent.2 bAtMax 0 0 Anomaly bAtMaxTripped ⟨svc⟩ (by decide)⟩

/-- C10: a response type outside `{Success, Anomaly, Fatal}` makes `Register`
panic (`"Unknown response type"`) rather than return an error value, and for
the three defined response types that panic branch is unreachable. -/
theorem C10_unknown_response :
    (∀ (c : CountBreaker) (now extra : Int) (r : ResponseType),
      r ≠ Success → r ≠ Anomaly → r ≠ Fatal →
      Register c now extra r = .error GoPanic.unknownResponseType) ∧
    (∀ (c : CountBreaker) (now extra : Int) (r : ResponseType),
      r = Success ∨ r = Anomaly ∨ r = Fatal →
      Register c now extra r ≠ .error GoPanic.unknownResponseType) :=
  ⟨Register_unknown, Register_no_unknown⟩

/-- Witness for C10: response type 7 panics; response type `Anomaly` does
not reach that panic. -/
theorem C10_unknown_response_witness :
    Register bOne 0 0 7 = .error GoPanic.unknownResponseType ∧
    Register bOne 0 0 Anomaly ≠ .error GoPanic.unknownResponseType :=
  ⟨C10_unknown_response.1 bOne 0 0 7 (by decide) (by decide) (by decide),
   C10_unknown_response.2 bOne 0 0 Anomaly (by decide)⟩

/-- C6: in the HalfOpen state (deadline not elapsed), any `Anomaly` or
`Fatal` report trips the breaker and returns the tripped error, regardless
of the counter values and thresholds. -/
theorem C6_halfOpen_trips :
    ∀ (c : CountBreaker) (now extra : Int), ¬ c.resetTime < now →
    c.state = stateHalfOpen →
    0 < wrap64 (goShl c.params.BackoffDuration (c.successiveFailures + 1)
      - goShl c.params.BackoffDuration c.successiveFailures) →
    (∃ c1, Register c now extra Anomaly = .ok (c1, some ⟨c.serviceName⟩) ∧
      c1.state = stateClosed) ∧
    (∃ c2, Register c now extra Fatal = .ok (c2, some ⟨c.serviceName⟩) ∧
      c2.state = stateClosed) := by
  intro c now extra hre hs hb
  exact ⟨⟨_, Register_anomaly_halfOpen c now extra hre hs hb, rfl⟩,
    ⟨_, Register_fatal_halfOpen c now extra hre hs hb, rfl⟩⟩

/-- Witness for C6 on a concrete half-open breaker. -/
theorem C6_halfOpen_trips_witness :
    (∃ c1, Register bHalf 0 0 Anomaly = .ok (c1, some ⟨bHalf.serviceName⟩) ∧
      c1.state = stateClosed) ∧
    (∃ c2, Register bHalf 0 0 Fatal = .ok (c2, some ⟨bHalf.serviceName⟩) ∧
      c2.state = stateClosed) :=
  C6_halfOpen_trips bHalf 0 0 (by decide) (by decide) (by decide)



/-- Counterexample to C1 as stated: with `maxAnomalies = 1` and
`numAnomalies = 0` — so the pre-increment value equals `maxAnomalies - 1` —
`Register(Anomaly)` does NOT attempt a trip (the breaker stays in the Normal
state and no error is returned), while one call later, when the
pre-increment value equals `maxAnomalies` itself (post-increment count
`maxAnomalies + 1`), the trip fires. -/
theorem C1_counterexample :
    bOne.params.MaxAnomalies = 1 ∧ bOne.numAnomalies = 0 ∧
    bOne.state = stateOpen ∧
    Register bOne 0 0 Anomaly = .ok (bAtMax, none) ∧
    bAtMax.state = stateOpen ∧ bAtMax.numAnomalies = 1 ∧
    Register bAtMax 0 0 Anomaly = .ok (bAtMaxTripped, some ⟨svc⟩) ∧
    bAtMaxTripped.state = stateClosed := by decide

/-- Counterexample to C7 as stated: `bSlackThree` is reachable (three
anomalies registered on a fresh breaker) and holds `numAnomalies = 3` with
deadline 10; a `Register(Success)` at time 20 — after the deadline — resets
`numAnomalies` to 0 and moves the deadline to 30, so `Register(Success)` is
not always free of side effects on the counters and the deadline. -/
theorem C7_counterexample :
    registerRun 0 0 bSlack (List.replicate 3 Anomaly) =
      .ok (bSlackThree, List.replicate 3 false) ∧
    bSlackThree.numAnomalies = 3 ∧ bSlackThree.resetTime = 10 ∧
    Register bSlackThree 20 0 Success = .ok (bSlackRolled, none) ∧
    bSlackRolled.numAnomalies = 0 ∧ bSlackRolled.resetTime = 30 := by decide

/-- Counterexample to C8 as stated: on a fresh breaker whose counting
window (100) exceeds its backoff cap (1), the first anomaly trips the
breaker and `trip` stores `deadline = now + totalTime = 2`, moving the
deadline backward from 100. -/
theorem C8_counterexample :
    bLongWin.resetTime = 100 ∧
    Register bLongWin 1 0 Anomaly = .ok (bLongWinTripped, some ⟨svc⟩) ∧
    bLongWinTripped.resetTime = 2 ∧
    bLongWinTripped.resetTime < bLongWin.resetTime := by decide

/-- Counterexample to C9 as stated: `bWideTwo` is reachable (two anomalies
registered on a fresh breaker) and holds `numAnomalies = 2`; `IsTripped` at
time 20 — after the deadline — performs the window rollover and resets
`numAnomalies` to 0, so `IsTripped` does mutate the counters on an elapsed
window. -/
theorem C9_counterexample :
    registerRun 0 0 bWide (List.replicate 2 Anomaly) =
      .ok (bWideTwo, List.replicate 2 false) ∧
    bWideTwo.numAnomalies = 2 ∧
    IsTripped bWideTwo 20 = .ok (bWideRolled, none) ∧
    bWideRolled.numAnomalies = 0 := by decide



theorem maybeReset_resetTime (c : CountBreaker) (now : Int)
    (he : c.resetTime < now) :
    (maybeReset c now).resetTime = now + c.params.TimeWindow := by
  unfold maybeReset
  rw [if_pos he]
  split
  · rfl
  · split
    · rfl
    · rfl

theorem maybeReset_serviceName (c : CountBreaker) (now : Int) :
    (maybeReset c now).serviceName = c.serviceName := by
  unfold maybeReset
  split
  · split
    · rfl
    · split
      · rfl
      · rfl
  · rfl

/-- C5: when the deadline has elapsed, the rollover moves a Tripped breaker
to HalfOpen (counters reset, deadline advanced by the window, consecutive
failures kept) and a Normal/HalfOpen breaker to Normal (counters and
consecutive failures reset, deadline advanced by the window); with a
non-negative window the rollover happens exactly once. -/
theorem C5_window_rollover :
    ∀ (c : CountBreaker) (now : Int), c.resetTime < now →
    (c.state = stateClosed →
      maybeReset c now = { c with
        state := stateHalfOpen
        numAnomalies := 0
        numFatalities := 0
        resetTime := now + c.params.TimeWindow }) ∧
    ((c.state = stateOpen ∨ c.state = stateHalfOpen) →
      maybeReset c now = { c with
        state := stateOpen
        successiveFailures := 0
        numAnomalies := 0
        numFatalities := 0
        resetTime := now + c.params.TimeWindow }) ∧
    (0 ≤ c.params.TimeWindow →
      maybeReset (maybeReset c now) now = maybeReset c now) := by
  intro c now he
  refine ⟨maybeReset_from_tripped c now he, maybeReset_from_untripped c now he,
    fun htw => ?_⟩
  apply maybeReset_not_elapsed
  rw [maybeReset_resetTime c now he]
  omega

/-- Witness for C5 at a concrete tripped breaker and a concrete normal
breaker with elapsed deadlines. -/
theorem C5_window_rollover_witness :
    (maybeReset bTripped 20 = { bTripped with
      state := stateHalfOpen
      numAnomalies := 0
      numFatalities := 0
      resetTime := 20 + bTripped.params.TimeWindow }) ∧
    (maybeReset bSlackThree 20 = { bSlackThree with
      state := stateOpen
      successiveFailures := 0
      numAnomalies := 0
      numFatalities := 0
      resetTime := 20 + bSlackThree.params.TimeWindow }) ∧
    maybeReset (maybeReset bTripped 20) 20 = maybeReset bTripped 20 :=
  ⟨(C5_window_rollover bTripped 20 (by decide)).1 rfl,
   (C5_window_rollover bSlackThree 20 (by decide)).2.1 (Or.inl rfl),
   (C5_window_rollover bTripped 20 (by decide)).2.2 (by decide)⟩

/-- C7 amended: `Register(Success)` never returns the tripped error; and
provided the deadline has not elapsed (so no window rollover fires first)
it changes nothing except moving a HalfOpen breaker back to Normal. -/
theorem C7_success_effect :
    ∀ (c : CountBreaker) (now extra : Int),
    (∀ (c1 : CountBreaker) (e : Option ErrTripped),
      Register c now extra Success = .ok (c1, e) → e = none) ∧
    (¬ c.resetTime < now →
      Register c now extra Success =
        .ok (if c.state = stateHalfOpen then { c with state := stateOpen }
          else c, none)) := by
  intro c now extra
  constructor
  · intro c1 e h
    obtain ⟨c2, h2⟩ := Register_success_ok c now extra
    rw [h2] at h
    simp only [Except.ok.injEq, Prod.mk.injEq] at h
    exact h.2.symm
  · intro hre
    exact Register_success_not_elapsed c now extra hre

/-- Witness for C7 amended: a success on a half-open breaker with a live
deadline moves it to Normal and nothing else. -/
theorem C7_success_effect_witness :
    Register bHalf 0 0 Success =
      .ok (if bHalf.state = stateHalfOpen then { bHalf with state := stateOpen }
        else bHalf, none) :=
  (C7_success_effect bHalf 0 0).2 (by decide)



/-- C8 amended: the window-rollover path never moves the deadline backward
(for a non-negative window), and a successful trip stores
`deadline = now + totalTime`, which is at least `now` for a valid draw and
non-negative parameters — but, as the counterexample shows, possibly
earlier than the previous deadline. -/
theorem C8_deadline_movement :
    (∀ (c : CountBreaker) (now : Int), 0 ≤ c.params.TimeWindow →
      c.resetTime ≤ (maybeReset c now).resetTime) ∧
    (∀ (c : CountBreaker) (now extra : Int) (c' : CountBreaker),
      0 ≤ extra → 0 ≤ c.params.BackoffDuration → 0 ≤ c.params.MaxBackoff →
      c.params.BackoffDuration * 2 ^ (c.successiveFailures + 1) < 2 ^ 63 →
      extra < c.params.BackoffDuration * 2 ^ (c.successiveFailures + 1)
        - c.params.BackoffDuration * 2 ^ c.successiveFailures →
      trip c now extra = .ok (c', true) → now ≤ c'.resetTime) := by
  constructor
  · intro c now htw
    by_cases he : c.resetTime < now
    · rw [maybeReset_resetTime c now he]
      omega
    · rw [maybeReset_not_elapsed c now he]
  · intro c now extra c' hx hbd hmb hlt hrange htrip
    have hstate := (trip_true_state htrip).1
    have hminlt : c.params.BackoffDuration * 2 ^ c.successiveFailures <
        2 ^ 63 := by
      calc c.params.BackoffDuration * 2 ^ c.successiveFailures
          ≤ c.params.BackoffDuration * 2 ^ (c.successiveFailures + 1) := by
            apply mul_le_mul_of_nonneg_left _ hbd
            exact pow_le_pow_right₀ (by norm_num) (by omega)
        _ < 2 ^ 63 := hlt
    have hminnn : 0 ≤ c.params.BackoffDuration * 2 ^ c.successiveFailures :=
      mul_nonneg hbd (by positivity)
    have hmin := goShl_eq c.params.BackoffDuration c.successiveFailures hbd
      hminlt
    have hmax := goShl_eq c.params.BackoffDuration (c.successiveFailures + 1)
      hbd hlt
    have hbound : 0 < wrap64
        (goShl c.params.BackoffDuration (c.successiveFailures + 1)
          - goShl c.params.BackoffDuration c.successiveFailures) := by
      rw [hmin, hmax, wrap64_eq _ (by omega) (by omega)]
      omega
    rw [trip_ok c now extra hstate hbound] at htrip
    simp only [Except.ok.injEq, Prod.mk.injEq] at htrip
    obtain ⟨hc, _⟩ := htrip
    subst hc
    have htot : wrap64 (goShl c.params.BackoffDuration c.successiveFailures
        + extra) = c.params.BackoffDuration * 2 ^ c.successiveFailures
        + extra := by
      rw [hmin]
      exact wrap64_eq _ (by omega) (by omega)
    dsimp only
    rw [htot]
    split
    · omega
    · omega

/-- Witness for C8 amended at concrete instances: the rollover advances
(or keeps) the deadline, and a concrete trip lands at `now + totalTime ≥
now`. -/
theorem C8_deadline_movement_witness :
    bOne.resetTime ≤ (maybeReset bOne 20).resetTime ∧
    (0 : Int) ≤ ({ bAtMax with
      state := stateClosed
      resetTime := 1
      successiveFailures := 1 } : CountBreaker).resetTime :=
  ⟨C8_deadline_movement.1 bOne 20 (by decide),
   C8_deadline_movement.2 bAtMax 0 0 _ (by decide) (by decide)
     (by decide) (by decide) (by decide) (by decide)⟩



theorem maybeReset_state_cases (c : CountBreaker) (now : Int)
    (hs : c.state = stateOpen ∨ c.state = stateHalfOpen ∨
      c.state = stateClosed) :
    (maybeReset c now).state = stateOpen ∨
      (maybeReset c now).state = stateHalfOpen ∨
      (maybeReset c now).state = stateClosed := by
  unfold maybeReset
  split
  · split
    · exact Or.inl rfl
    · split
      · exact Or.inr (Or.inl rfl)
      · exact hs
  · exact hs

/-- C9 amended: `IsTripped` first runs the window rollover, then returns the
tripped error — carrying the configured service name — exactly when the
state read after the rollover is Tripped, and success otherwise; whenever
the deadline has not yet elapsed (so the rollover is a no-op), the counters
are untouched. -/
theorem C9_isTripped_readonly :
    ∀ (c : CountBreaker) (now : Int),
    c.state = stateOpen ∨ c.state = stateHalfOpen ∨ c.state = stateClosed →
    IsTripped c now = .ok (maybeReset c now,
      if (maybeReset c now).state = stateClosed then some ⟨c.serviceName⟩
      else none) ∧
    (¬ c.resetTime < now →
      (maybeReset c now).numAnomalies = c.numAnomalies ∧
      (maybeReset c now).numFatalities = c.numFatalities) := by
  intro c now hs
  constructor
  · unfold IsTripped
    dsimp only
    by_cases hm : (maybeReset c now).state = stateOpen ∨
        (maybeReset c now).state = stateHalfOpen
    · rw [if_pos hm, if_neg]
      rcases hm with hm | hm <;> rw [hm] <;> decide
    · have h2 : (maybeReset c now).state = stateClosed := by
        rcases maybeReset_state_cases c now hs with h | h | h
        · exact absurd (Or.inl h) hm
        · exact absurd (Or.inr h) hm
        · exact h
      rw [if_neg hm, if_pos h2, if_pos h2, maybeReset_serviceName]
  · intro hre
    rw [maybeReset_not_elapsed c now hre]
    exact ⟨rfl, rfl⟩

/-- Witness for C9 amended on a live-deadline tripped breaker and on a
normal breaker. -/
theorem C9_isTripped_readonly_witness :
    (IsTripped bTripped 0 = .ok (maybeReset bTripped 0,
      if (maybeReset bTripped 0).state = stateClosed then some ⟨bTripped.serviceName⟩
      else none)) ∧
    ((maybeReset bWideTwo 0).numAnomalies = bWideTwo.numAnomalies ∧
      (maybeReset bWideTwo 0).numFatalities = bWideTwo.numFatalities) :=
  ⟨(C9_isTripped_readonly bTripped 0 (by decide)).1,
   (C9_isTripped_readonly bWideTwo 0 (by decide)).2 (by decide)⟩



/-- C4: a successful trip from a not-already-Tripped state, for any value
the random source can draw (`extra` uniform in `[0, maxTime - minTime)` with
the shifts inside the int64 range), sets the state to Tripped, increments
`successiveFailures`, and stores `deadline = now + total` where
`total = minTime + extra` capped at `maxBackoff`; the uncapped total lies in
`[base * 2^k, base * 2^(k+1))` for `k = successiveFailures`, and the new
deadline is never later than `now + maxBackoff`. -/
theorem C4_trip_backoff :
    ∀ (c : CountBreaker) (now extra : Int),
    c.state ≠ stateClosed →
    0 ≤ c.params.BackoffDuration →
    c.params.BackoffDuration * 2 ^ (c.successiveFailures + 1) < 2 ^ 63 →
    0 ≤ extra →
    extra < c.params.BackoffDuration * 2 ^ (c.successiveFailures + 1)
      - c.params.BackoffDuration * 2 ^ c.successiveFailures →
    ∃ total : Int,
      total = (if c.params.MaxBackoff ≤
          c.params.BackoffDuration * 2 ^ c.successiveFailures + extra
        then c.params.MaxBackoff
        else c.params.BackoffDuration * 2 ^ c.successiveFailures + extra) ∧
      trip c now extra = .ok ({ c with
          state := stateClosed
          resetTime := now + total
          successiveFailures := c.successiveFailures + 1 }, true) ∧
      total ≤ c.params.MaxBackoff ∧
      c.params.BackoffDuration * 2 ^ c.successiveFailures ≤
        c.params.BackoffDuration * 2 ^ c.successiveFailures + extra ∧
      c.params.BackoffDuration * 2 ^ c.successiveFailures + extra <
        c.params.BackoffDuration * 2 ^ (c.successiveFailures + 1) := by
  intro c now extra hstate hbd hlt hx hrange
  have hminlt : c.params.BackoffDuration * 2 ^ c.successiveFailures <
      2 ^ 63 := by
    calc c.params.BackoffDuration * 2 ^ c.successiveFailures
        ≤ c.params.BackoffDuration * 2 ^ (c.successiveFailures + 1) := by
          apply mul_le_mul_of_nonneg_left _ hbd
          exact pow_le_pow_right₀ (by norm_num) (by omega)
      _ < 2 ^ 63 := hlt
  have hminnn : 0 ≤ c.params.BackoffDuration * 2 ^ c.successiveFailures :=
    mul_nonneg hbd (by positivity)
  have hmin := goShl_eq c.params.BackoffDuration c.successiveFailures hbd
    hminlt
  have hmax := goShl_eq c.params.BackoffDuration (c.successiveFailures + 1)
    hbd hlt
  have hbound : 0 < wrap64
      (goShl c.params.BackoffDuration (c.successiveFailures + 1)
        - goShl c.params.BackoffDuration c.successiveFailures) := by
    rw [hmin, hmax, wrap64_eq _ (by omega) (by omega)]
    omega
  have htot : wrap64 (goShl c.params.BackoffDuration c.successiveFailures
      + extra) = c.params.BackoffDuration * 2 ^ c.successiveFailures
      + extra := by
    rw [hmin]
    exact wrap64_eq _ (by omega) (by omega)
  refine ⟨_, rfl, ?_, ?_, ?_, ?_⟩
  · rw [trip_ok c now extra hstate hbound, htot]
  · split
    · omega
    · omega
  · omega
  · omega

/-- Witness for C4 at a concrete breaker (`backoff = 1`, `k = 0`,
`extra = 0`): the trip stores `deadline = now + 1` and the uncapped total 1
lies in `[1, 2)`. -/
theorem C4_trip_backoff_witness :
    ∃ total : Int,
      total = (if bOne.params.MaxBackoff ≤
          bOne.params.BackoffDuration * 2 ^ bOne.successiveFailures + 0
        then bOne.params.MaxBackoff
        else bOne.params.BackoffDuration * 2 ^ bOne.successiveFailures + 0) ∧
      trip bOne 5 0 = .ok ({ bOne with
          state := stateClosed
          resetTime := 5 + total
          successiveFailures := bOne.successiveFailures + 1 }, true) ∧
      total ≤ bOne.params.MaxBackoff ∧
      bOne.params.BackoffDuration * 2 ^ bOne.successiveFailures ≤
        bOne.params.BackoffDuration * 2 ^ bOne.successiveFailures + 0 ∧
      bOne.params.BackoffDuration * 2 ^ bOne.successiveFailures + 0 <
        bOne.params.BackoffDuration * 2 ^ (bOne.successiveFailures + 1) :=
  C4_trip_backoff bOne 5 0 (by decide) (by decide) (by decide) (by decide)
    (by decide)



theorem trip_counters {c : CountBreaker} {now extra : Int}
    {c' : CountBreaker} {b : Bool} (h : trip c now extra = .ok (c', b)) :
    c'.numAnomalies = c.numAnomalies ∧ c'.numFatalities = c.numFatalities := by
  unfold trip at h
  split at h
  · simp only [Except.ok.injEq, Prod.mk.injEq] at h
    obtain ⟨h1, h2⟩ := h
    subst h1
    exact ⟨rfl, rfl⟩
  · dsimp only at h
    split at h
    · simp at h
    · simp only [Except.ok.injEq, Prod.mk.injEq] at h
      obtain ⟨h1, h2⟩ := h
      subst h1
      exact ⟨rfl, rfl⟩

theorem Register_anomaly_counters {c : CountBreaker} {now extra : Int}
    {c1 : CountBreaker} {e : Option ErrTripped}
    (hre : ¬ c.resetTime < now)
    (h : Register c now extra Anomaly = .ok (c1, e)) :
    c1.numAnomalies = (c.numAnomalies + 1) % u32Mod ∧
    c1.numFatalities = c.numFatalities := by
  unfold Register at h
  rw [maybeReset_not_elapsed c now hre] at h
  rw [if_neg (by decide : ¬(Anomaly = Success)),
    if_pos (rfl : Anomaly = Anomaly)] at h
  dsimp only at h
  split at h
  · split at h
    · simp at h
    · rename_i c3 heq
      have hc := trip_counters heq
      simp only [Except.ok.injEq, Prod.mk.injEq] at h
      obtain ⟨h1, h2⟩ := h
      subst h1
      exact hc
    · rename_i c3 heq
      have hc := trip_counters heq
      simp only [Except.ok.injEq, Prod.mk.injEq] at h
      obtain ⟨h1, h2⟩ := h
      subst h1
      exact hc
  · simp only [Except.ok.injEq, Prod.mk.injEq] at h
    obtain ⟨h1, h2⟩ := h
    subst h1
    exact ⟨rfl, rfl⟩

theorem Register_fatal_counters {c : CountBreaker} {now extra : Int}
    {c1 : CountBreaker} {e : Option ErrTripped}
    (hre : ¬ c.resetTime < now)
    (h : Register c now extra Fatal = .ok (c1, e)) :
    c1.numAnomalies = (c.numAnomalies + 1) % u32Mod ∧
    c1.numFatalities = (c.numFatalities + 1) % u32Mod := by
  unfold Register at h
  rw [maybeReset_not_elapsed c now hre] at h
  rw [if_neg (by decide : ¬(Fatal = Success)),
    if_neg (by decide : ¬(Fatal = Anomaly)),
    if_pos (rfl : Fatal = Fatal)] at h
  dsimp only at h
  split at h
  · split at h
    · simp at h
    · rename_i c3 heq
      have hc := trip_counters heq
      simp only [Except.ok.injEq, Prod.mk.injEq] at h
      obtain ⟨h1, h2⟩ := h
      subst h1
      exact hc
    · rename_i c3 heq
      have hc := trip_counters heq
      simp only [Except.ok.injEq, Prod.mk.injEq] at h
      obtain ⟨h1, h2⟩ := h
      subst h1
      exact hc
  · simp only [Except.ok.injEq, Prod.mk.injEq] at h
    obtain ⟨h1, h2⟩ := h
    subst h1
    exact ⟨rfl, rfl⟩



/-- C1 amended: with a live deadline and counters below the uint32
wrap-around, a non-success report increments its counter(s); from the
Normal state, `Register(Anomaly)` returns the tripped error if and only if
the pre-increment anomaly count equals `maxAnomalies` itself (so the
post-increment count is `maxAnomalies + 1`, not `maxAnomalies`), and
`Register(Fatal)` if and only if either pre-increment count equals its
threshold; from the Tripped state no error is returned; from HalfOpen
every non-success report trips. -/
theorem C1_threshold_conditions :
    ∀ (c : CountBreaker) (now extra : Int),
    ¬ c.resetTime < now →
    c.numAnomalies + 1 < u32Mod → c.numFatalities + 1 < u32Mod →
    0 < wrap64 (goShl c.params.BackoffDuration (c.successiveFailures + 1)
      - goShl c.params.BackoffDuration c.successiveFailures) →
    (∀ (c1 : CountBreaker) (e : Option ErrTripped),
      Register c now extra Anomaly = .ok (c1, e) →
      c1.numAnomalies = c.numAnomalies + 1 ∧
      c1.numFatalities = c.numFatalities) ∧
    (∀ (c1 : CountBreaker) (e : Option ErrTripped),
      Register c now extra Fatal = .ok (c1, e) →
      c1.numAnomalies = c.numAnomalies + 1 ∧
      c1.numFatalities = c.numFatalities + 1) ∧
    (c.state = stateOpen →
      ((∃ (c1 : CountBreaker) (e : ErrTripped),
          Register c now extra Anomaly = .ok (c1, some e)) ↔
        c.params.MaxAnomalies = c.numAnomalies) ∧
      ((∃ (c1 : CountBreaker) (e : ErrTripped),
          Register c now extra Fatal = .ok (c1, some e)) ↔
        (c.params.MaxFatalities = c.numFatalities ∨
          c.params.MaxAnomalies = c.numAnomalies))) ∧
    (c.state = stateClosed →
      Register c now extra Anomaly =
        .ok ({ c with numAnomalies := c.numAnomalies + 1 }, none) ∧
      Register c now extra Fatal =
        .ok ({ c with
            numAnomalies := c.numAnomalies + 1
            numFatalities := c.numFatalities + 1 }, none)) ∧
    (c.state = stateHalfOpen →
      (∃ c1, Register c now extra Anomaly = .ok (c1, some ⟨c.serviceName⟩)) ∧
      (∃ c2, Register c now extra Fatal = .ok (c2, some ⟨c.serviceName⟩))) := by
  intro c now extra hre hltA hltF hb
  refine ⟨?_, ?_, ?_, ?_, ?_⟩
  · intro c1 e h
    have hc := Register_anomaly_counters hre h
    rw [Nat.mod_eq_of_lt hltA] at hc
    exact hc
  · intro c1 e h
    have hc := Register_fatal_counters hre h
    rw [Nat.mod_eq_of_lt hltA, Nat.mod_eq_of_lt hltF] at hc
    exact hc
  · intro hs
    constructor
    · constructor
      · rintro ⟨c1, e, hreg⟩
        by_contra hne
        rw [Register_anomaly_noTrip c now extra hre hs hltA hne] at hreg
        simp at hreg
      · intro heq
        exact ⟨_, _, Register_anomaly_trip c now extra hre hs hltA heq hb⟩
    · constructor
      · rintro ⟨c1, e, hreg⟩
        by_contra hne
        push_neg at hne
        obtain ⟨hneF, hneA⟩ := hne
        rw [Register_fatal_noTrip c now extra hre hs hltA hltF hneA hneF]
          at hreg
        simp at hreg
      · intro hcond
        exact ⟨_, _, Register_fatal_trip c now extra hre hs hltA hltF hcond hb⟩
  · intro hs
    constructor
    · rw [Register_anomaly_closed c now extra hre hs, Nat.mod_eq_of_lt hltA]
    · rw [Register_fatal_closed c now extra hre hs, Nat.mod_eq_of_lt hltA,
        Nat.mod_eq_of_lt hltF]
  · intro hs
    exact ⟨⟨_, Register_anomaly_halfOpen c now extra hre hs hb⟩,
      ⟨_, Register_fatal_halfOpen c now extra hre hs hb⟩⟩

/-- Witness for C1 amended: on `bAtMax` (`maxAnomalies = 1`,
`numAnomalies = 1`, state Normal) the anomaly threshold condition holds, so
the tripped error is returned. -/
theorem C1_threshold_conditions_witness :
    ∃ (c1 : CountBreaker) (e : ErrTripped),
      Register bAtMax 0 0 Anomaly = .ok (c1, some e) :=
  (((C1_threshold_conditions bAtMax 0 0 (by decide) (by decide) (by decide)
    (by decide)).2.2.1 rfl).1).mpr rfl



theorem IsTripped_allowed (c : CountBreaker) (now : Int)
    (hre : ¬ c.resetTime < now)
    (hs : c.state = stateOpen ∨ c.state = stateHalfOpen) :
    IsTripped c now = .ok (c, none) := by
  unfold IsTripped
  rw [maybeReset_not_elapsed c now hre]
  dsimp only
  rw [if_pos hs]

/-- C2: on a freshly constructed breaker with `maxAnomalies = b` (any
`maxFatalities`, default windows), a sequence of `b + 1` `Register(Anomaly)`
calls returns no tripped signal on the first `b` calls and exactly one
tripped signal on the `(b+1)`-th, leaving the breaker Tripped; before the
`(b+1)`-th call, after any prefix of `k ≤ b` registrations, `IsTripped`
still reports allowed. -/
theorem C2_fresh_threshold_run :
    ∀ (b f : Nat) (now extra : Int), b + 1 < u32Mod →
    (∀ k, k ≤ b →
      registerRun now extra (NewCountBreaker svc ⟨b, f, 0, 0, 0⟩ now)
          (List.replicate k Anomaly) =
        .ok ({ NewCountBreaker svc ⟨b, f, 0, 0, 0⟩ now with
          numAnomalies := k }, List.replicate k false) ∧
      IsTripped { NewCountBreaker svc ⟨b, f, 0, 0, 0⟩ now with
          numAnomalies := k } now =
        .ok ({ NewCountBreaker svc ⟨b, f, 0, 0, 0⟩ now with
          numAnomalies := k }, none)) ∧
    (∃ cF, registerRun now extra (NewCountBreaker svc ⟨b, f, 0, 0, 0⟩ now)
          (List.replicate (b + 1) Anomaly) =
        .ok (cF, List.replicate b false ++ [true]) ∧
      cF.state = stateClosed) := by
  intro b f now extra hb
  have hre : ¬ (NewCountBreaker svc ⟨b, f, 0, 0, 0⟩ now).resetTime < now := by
    show ¬ now + (60000000000 : Int) < now
    omega
  have h0 : (NewCountBreaker svc ⟨b, f, 0, 0, 0⟩ now).numAnomalies = 0 := rfl
  have hpref : ∀ k, k ≤ b →
      registerRun now extra (NewCountBreaker svc ⟨b, f, 0, 0, 0⟩ now)
          (List.replicate k Anomaly) =
        .ok ({ NewCountBreaker svc ⟨b, f, 0, 0, 0⟩ now with
          numAnomalies := k }, List.replicate k false) := by
    intro k hk
    have hM : (NewCountBreaker svc ⟨b, f, 0, 0, 0⟩ now).params.MaxAnomalies
        = b := rfl
    have hrun := registerRun_replicate_noTrip k
      (NewCountBreaker svc ⟨b, f, 0, 0, 0⟩ now) now extra hre rfl
      (by omega) hb
    have hconv : (NewCountBreaker svc ⟨b, f, 0, 0, 0⟩ now).numAnomalies + k
        = k := by omega
    rw [hconv] at hrun
    exact hrun
  constructor
  · intro k hk
    refine ⟨hpref k hk, ?_⟩
    exact IsTripped_allowed _ now hre (Or.inl rfl)
  · rw [List.replicate_succ', registerRun_append]
    rw [hpref b (le_refl b)]
    dsimp only [registerRun]
    rw [Register_anomaly_trip
      { NewCountBreaker svc ⟨b, f, 0, 0, 0⟩ now with numAnomalies := b }
      now extra hre rfl hb rfl
      (by show 0 < wrap64 (goShl (60000000000 : Int) 1 - goShl 60000000000 0)
          decide)]
    dsimp only [Option.isSome]
    exact ⟨_, rfl, rfl⟩

/-- Witness for C2 at `b = 1`: two anomaly registrations on a fresh breaker
with `maxAnomalies = 1` signal `[false, true]`. -/
theorem C2_fresh_threshold_run_witness :
    (∀ k, k ≤ 1 →
      registerRun 0 0 (NewCountBreaker svc ⟨1, 5, 0, 0, 0⟩ 0)
          (List.replicate k Anomaly) =
        .ok ({ NewCountBreaker svc ⟨1, 5, 0, 0, 0⟩ 0 with
          numAnomalies := k }, List.replicate k false) ∧
      IsTripped { NewCountBreaker svc ⟨1, 5, 0, 0, 0⟩ 0 with
          numAnomalies := k } 0 =
        .ok ({ NewCountBreaker svc ⟨1, 5, 0, 0, 0⟩ 0 with
          numAnomalies := k }, none)) ∧
    (∃ cF, registerRun 0 0 (NewCountBreaker svc ⟨1, 5, 0, 0, 0⟩ 0)
          (List.replicate 2 Anomaly) =
        .ok (cF, List.replicate 1 false ++ [true]) ∧
      cF.state = stateClosed) :=
  C2_fresh_threshold_run 1 5 0 0 (by decide)

end Circuit
